import Mathlib

/-!
Verification model of the uxio.js upload pipeline.

The development shallowly embeds the repository's file-persistence engine
(`src/files.js`: `files.save`, `files.send`), the ingestion stage and the
request registry helpers (`index.js` middleware), as pure Lean functions over
an explicit filesystem / object-store state.  JavaScript `undefined`-able
values are modelled with `Option`, JS truthiness is modelled explicitly where
the code relies on it, and thrown errors are modelled with `Except`.
-/

namespace Uxio

/-- A filesystem entry is either a regular file or a directory. -/
inductive Entry where
  | file
  | dir
deriving DecidableEq, Repr

/-- Filesystem state: a partial map from paths to entries.  Paths are opaque
strings; `fs.promises.access` is modelled as a lookup, `fs.promises.rename`
and `fs.promises.unlink` as pointwise updates. -/
structure Fs where
  entries : String → Option Entry

/-- Pointwise update of the filesystem map. -/
def Fs.set (fs : Fs) (p : String) (e : Option Entry) : Fs :=
  ⟨fun q => if q = p then e else fs.entries q⟩

/-- A cached-file record, exactly the object pushed by the middleware's
`bb.on("file")` handler in `index.js`:
`{ fieldname, filename, encoding, mimeType, tempFilePath, size: 0 }`.
Note the record's declared-MIME key is `mimeType` (capital T). -/
structure CachedFile where
  fieldname : String
  filename : String
  encoding : String
  mimeType : String
  tempFilePath : String
  size : Nat
deriving DecidableEq, Repr

/-- JS property access `fileToSave.mimetype` (all lowercase), as written in
`files.js` when building the result records.  The cached-file records only
define the key `mimeType`, so this access evaluates to `undefined`, modelled
as `none`. -/
def CachedFile.mimetypeAccess (_ : CachedFile) : Option String := none

/-- A JS value that is either a single string or an array of strings, used for
`config.filename` and `config.validations.mimeType`
(`Array.isArray(x) ? x : ...`). -/
inductive StrOrList where
  | one (s : String)
  | many (l : List String)
deriving DecidableEq, Repr

/-- `Array.isArray(filename) ? filename : [filename]` from `files.save`. -/
def StrOrList.toList : StrOrList → List String
  | .one s => [s]
  | .many l => l

/-- The `validations` config object of `files.save` / `files.send`. -/
structure Validations where
  maxSize : Option Nat := none
  mimeType : Option StrOrList := none

/-- One `save` configuration object (`files.js`), with the JS destructuring
defaults `required = false`, `makedir = false`. -/
structure SaveConfig where
  filename : StrOrList
  path : String
  validations : Option Validations := none
  rename : Option (CachedFile → String) := none
  required : Bool := false
  makedir : Bool := false

/-- Errors as thrown by the implementation: `FileSaveError` (with `message`
and numeric `status`), or a raw filesystem/SDK error carrying a `code` and a
`message` but no `status` property. -/
inductive JsErr where
  | fileSaveError (message : String) (status : Nat)
  | fsError (code : String) (message : String)
deriving DecidableEq, Repr

/-- The numeric `.status` property of an error: present on `FileSaveError`,
`undefined` on raw errors. -/
def JsErr.statusOf : JsErr → Option Nat
  | .fileSaveError _ s => some s
  | .fsError _ _ => none

/-- Whether a thrown value is a `FileSaveError` (`err instanceof FileSaveError`). -/
def JsErr.isFileSaveErr : JsErr → Bool
  | .fileSaveError _ _ => true
  | .fsError _ _ => false

/-- The result record pushed into `savedFilesInfo` by `files.save`:
`{ fieldname, originalName, path, size, mimeType }`. -/
structure SavedFileInfo where
  fieldname : String
  originalName : String
  path : String
  size : Nat
  mimeType : Option String
deriving DecidableEq, Repr

/-- `path.join(destinationPath, newFilename)`, modelled as separator
concatenation (paths are opaque strings in this model). -/
def pathJoin (a b : String) : String := a ++ "/" ++ b

/-- ASCII lower-casing of one character (the fragment of `toLowerCase`
relevant to provider identifiers). -/
def charLower : Char → Char
  | 'A' => 'a' | 'B' => 'b' | 'C' => 'c' | 'D' => 'd' | 'E' => 'e' | 'F' => 'f'
  | 'G' => 'g' | 'H' => 'h' | 'I' => 'i' | 'J' => 'j' | 'K' => 'k' | 'L' => 'l'
  | 'M' => 'm' | 'N' => 'n' | 'O' => 'o' | 'P' => 'p' | 'Q' => 'q' | 'R' => 'r'
  | 'S' => 's' | 'T' => 't' | 'U' => 'u' | 'V' => 'v' | 'W' => 'w' | 'X' => 'x'
  | 'Y' => 'y' | 'Z' => 'z' | c => c

/-- `provider.toLowerCase()`. -/
def strLower (s : String) : String := String.mk (s.data.map charLower)

/-- A whitespace character as removed by `String.prototype.trim`. -/
def isWsChar (c : Char) : Bool := c = ' ' ∨ c = '\t' ∨ c = '\n' ∨ c = '\r'

/-- `m.trim()`: strip leading and trailing whitespace. -/
def trimStr (s : String) : String :=
  String.mk (((s.data.dropWhile isWsChar).reverse.dropWhile isWsChar).reverse)

/-- Splitting a character list at a separator character. -/
def splitCharAux (sep : Char) : List Char → List Char → List (List Char)
  | [], acc => [acc.reverse]
  | c :: cs, acc =>
    if c = sep then acc.reverse :: splitCharAux sep cs []
    else splitCharAux sep cs (c :: acc)

/-- `s.split(sep)` for a one-character separator, with the JS semantics
(`"".split(x) = [""]`, empty segments kept). -/
def splitChar (sep : Char) (s : String) : List String :=
  (splitCharAux sep s.data []).map String.mk

/-- The JS truthiness of `validations.mimeType`: an array is always truthy,
a string is truthy iff nonempty, `undefined` is falsy. -/
def mimeSpecTruthy : Option StrOrList → Bool
  | some (.one s) => s ≠ ""
  | some (.many _) => true
  | none => false

/-- `Array.isArray(validations.mimeType) ? validations.mimeType :
validations.mimeType.split(",").map((m) => m.trim())` from `files.save`. -/
def allowedMimes : StrOrList → List String
  | .many l => l
  | .one s => (splitChar ',' s).map trimStr

/-- The MIME-type half of the validation step: if `validations.mimeType` is
truthy and the declared type is not in the allowed list, throw a
`FileSaveError` with the constructor's default status 400. -/
def mimeCheck (v : Validations) (f : CachedFile) : Option JsErr :=
  match v.mimeType with
  | none => none
  | some spec =>
    if mimeSpecTruthy (some spec) then
      let allowed := allowedMimes spec
      if allowed.contains f.mimeType then none
      else some (.fileSaveError ("Invalid file type for \x27" ++ f.filename ++ "\x27. Only "
        ++ String.intercalate ", " allowed ++ " are allowed.") 400)
    else none

/-- The per-file validation step (step 1 of the file-by-file loop of
`files.save`, duplicated verbatim in `files.send`).  The size guard is
`validations.maxSize && fileToSave.size > validations.maxSize`: JS truthiness
makes `maxSize = 0` skip the size check entirely. -/
def validateFile (vOpt : Option Validations) (f : CachedFile) : Option JsErr :=
  match vOpt with
  | none => none
  | some v =>
    match v.maxSize with
    | some m =>
      if m ≠ 0 ∧ f.size > m then
        some (.fileSaveError ("File size for \x27" ++ f.filename ++ "\x27 exceeds limit of "
          ++ toString m ++ " bytes.") 400)
      else mimeCheck v f
    | none => mimeCheck v f

/-- Step 2 of the file loop: `typeof rename === "function" ?
rename(fileToSave) : fileToSave.filename`. -/
def renameOf (cfg : SaveConfig) (f : CachedFile) : String :=
  match cfg.rename with
  | some g => g f
  | none => f.filename

/-- The final destination path computed for one file by `files.save`. -/
def finalPathFor (cfg : SaveConfig) (f : CachedFile) : String :=
  pathJoin cfg.path (renameOf cfg f)

/-- The result record built at step 4 of `files.save`.  Its `mimeType` field
is assigned `fileToSave.mimetype` (a key the cached record does not have), so
it is always `undefined`. -/
def infoFor (cfg : SaveConfig) (f : CachedFile) : SavedFileInfo :=
  { fieldname := f.fieldname
    originalName := f.filename
    path := finalPathFor cfg f
    size := f.size
    mimeType := f.mimetypeAccess }

/-- `fs.promises.rename(src, dst)`: fails with `ENOENT` when the source is
missing, otherwise removes the source entry and (over)writes the destination
entry with a regular file. -/
def fsRename (src dst : String) (fs : Fs) : Except JsErr Fs :=
  match fs.entries src with
  | none => .error (.fsError "ENOENT" ("ENOENT: no such file or directory, rename \x27"
      ++ src ++ "\x27 -> \x27" ++ dst ++ "\x27"))
  | some _ => .ok ((fs.set src none).set dst (some .file))

/-- One iteration of the file-by-file loop of `files.save`: validation, rename,
the exists-check (`Conflict`, 409, no overwrite), and the move.  On success it
returns the pushed info record, the new filesystem, and the destination path
pushed onto `savedFilePathsForRollback`. -/
def stepFile (cfg : SaveConfig) (f : CachedFile) (fs : Fs) :
    Except JsErr (SavedFileInfo × Fs × String) :=
  match validateFile cfg.validations f with
  | some e => .error e
  | none =>
    let newName := renameOf cfg f
    let finalPath := finalPathFor cfg f
    if (fs.entries finalPath).isSome then
      .error (.fileSaveError ("File with name \x27" ++ newName ++ "\x27 already exists.") 409)
    else
      match fsRename f.tempFilePath finalPath fs with
      | .error e => .error e
      | .ok fs1 => .ok (infoFor cfg f, fs1, finalPath)

/-- `uxioObject.files.filter((f) => filenamesToSave.includes(f.fieldname))`. -/
def matchedFiles (cfg : SaveConfig) (reg : List CachedFile) : List CachedFile :=
  reg.filter (fun f => cfg.filename.toList.contains f.fieldname)

/-- The `makedir` block of `files.save`: `access(destinationPath)` succeeds
when any entry exists there; on `ENOENT`, either create the directory
(`makedir`) or throw `FileSaveError` 404. -/
def ensureDir (cfg : SaveConfig) (fs : Fs) : Except JsErr Fs :=
  match fs.entries cfg.path with
  | some _ => .ok fs
  | none =>
    if cfg.makedir then .ok (fs.set cfg.path (some .dir))
    else .error (.fileSaveError ("Destination directory not found: " ++ cfg.path) 404)

/-- The 404 `Required files not found` error thrown by `files.save` /
`files.send` for a required config with no matching files. -/
def requiredErr (sel : StrOrList) : JsErr :=
  .fileSaveError ("Required files not found for fields: "
    ++ String.intercalate ", " sel.toList ++ ".") 404

/-- Outcome of the processing loops before the catch block runs: accumulated
results, the state at that point, and the rollback ledger accumulated so far. -/
inductive LoopOut (ι σ κ : Type) where
  | ok (acc : List ι) (st : σ) (ledger : List κ)
  | err (e : JsErr) (st : σ) (ledger : List κ)

/-- The file-by-file loop of `files.save` over the matched files of one
config, threading the filesystem, the `savedFilesInfo` accumulator and the
`savedFilePathsForRollback` ledger. -/
def saveFilesLoop (cfg : SaveConfig) :
    List CachedFile → Fs → List SavedFileInfo → List String →
    LoopOut SavedFileInfo Fs String
  | [], fs, infos, ledger => .ok infos fs ledger
  | f :: rest, fs, infos, ledger =>
    match stepFile cfg f fs with
    | .error e => .err e fs ledger
    | .ok (info, fs1, p) => saveFilesLoop cfg rest fs1 (infos ++ [info]) (ledger ++ [p])

/-- The main config loop of `files.save`: for each config in order, filter the
registry, handle `required` / skip, resolve the destination directory, then run
the file loop. -/
def saveConfigsLoop :
    List SaveConfig → List CachedFile → Fs → List SavedFileInfo → List String →
    LoopOut SavedFileInfo Fs String
  | [], _, fs, infos, ledger => .ok infos fs ledger
  | cfg :: rest, reg, fs, infos, ledger =>
    let matched := matchedFiles cfg reg
    if cfg.required ∧ matched = [] then
      .err (requiredErr cfg.filename) fs ledger
    else if matched = [] then
      saveConfigsLoop rest reg fs infos ledger
    else
      match ensureDir cfg fs with
      | .error e => .err e fs ledger
      | .ok fs1 =>
        match saveFilesLoop cfg matched fs1 infos ledger with
        | .ok infos1 fs2 ledger1 => saveConfigsLoop rest reg fs2 infos1 ledger1
        | .err e fs2 ledger1 => .err e fs2 ledger1

/-- A config argument as accepted by `files.save` / `files.send`: a single
object or an array (`Array.isArray(config) ? config : [config]`). -/
inductive ConfigArg (α : Type) where
  | single (c : α)
  | batch (cs : List α)

/-- `configsToProcess`. -/
def ConfigArg.toList : ConfigArg α → List α
  | .single c => [c]
  | .batch cs => cs

/-- `fs.promises.unlink(p).catch(log)` during rollback: removes the entry,
except that an injected deletion fault (`stuck p`) leaves the entry in place —
the rejection is caught and only logged. -/
def unlinkBestEffort (stuck : String → Bool) (p : String) (fs : Fs) : Fs :=
  if stuck p then fs else fs.set p none

/-- The rollback pass of `files.save`'s catch block: delete every ledger path,
each deletion independent and best-effort. -/
def rollbackPaths (stuck : String → Bool) (ledger : List String) (fs : Fs) : Fs :=
  ledger.foldl (fun s p => unlinkBestEffort stuck p s) fs

/-- Rethrow policy of `files.save`'s catch block: a `FileSaveError` is
rethrown as-is; any other error is wrapped via
`new FileSaveError(err.message, err.status)` — `err.status` is `undefined` on
raw errors, so the constructor's default status 400 applies. -/
def wrapSave : JsErr → JsErr
  | .fileSaveError m s => .fileSaveError m s
  | .fsError _ m => .fileSaveError m 400

/-- Full outcome of a `files.save` call: the settled promise, the final
filesystem, the filesystem at the moment the error was thrown (equal to the
final one on success), and the rollback ledger of this call. -/
structure SaveResult where
  result : Except JsErr (List SavedFileInfo)
  fsFinal : Fs
  fsAtError : Fs
  ledger : List String

/-- The complete `files.save(config, uxioObject)` model over filesystem `fs`;
`stuck` is the set of paths whose rollback deletion would fail. -/
def filesSave (cfgArg : ConfigArg SaveConfig) (reg : List CachedFile) (fs : Fs)
    (stuck : String → Bool) : SaveResult :=
  match saveConfigsLoop cfgArg.toList reg fs [] [] with
  | .ok infos fs1 ledger => ⟨.ok infos, fs1, fs1, ledger⟩
  | .err e fs1 ledger => ⟨.error (wrapSave e), rollbackPaths stuck ledger fs1, fs1, ledger⟩

/-- The output order the `save` contract promises: config order first, and
within each config the matched files in registry (arrival) order. -/
def perConfigInfos (reg : List CachedFile) : List SaveConfig → List SavedFileInfo
  | [] => []
  | c :: rest => (matchedFiles c reg).map (infoFor c) ++ perConfigInfos reg rest

/-! ### The `files.send` model -/

/-- Provider options object of a `send` config (`options.bucket`,
`options.region`, `options.credentials`, `options.url`).  Credentials are an
opaque token (a JS object, truthy whenever present). -/
structure SendOptions where
  bucket : Option String := none
  region : Option String := none
  credentials : Option String := none
  url : Option String := none

/-- One `send` configuration object (`files.js`), with destructuring default
`required = false`. -/
structure SendConfig where
  filename : StrOrList
  provider : Option String := none
  options : Option SendOptions := none
  validations : Option Validations := none
  rename : Option (CachedFile → String) := none
  required : Bool := false

/-- JS truthiness of an optional string (absent and `""` are falsy). -/
def truthyStr : Option String → Bool
  | some s => s ≠ ""
  | none => false

/-- A result record pushed into `sentFilesInfo` by `files.send`: either the
object built in the `s3` case (`{ provider: 's3', bucket, key, url, size,
mimeType }`) or the `customHttp` case (`{ provider: 'customHttp',
...response.data }`, the remote response body merged verbatim). -/
inductive SendInfo where
  | s3Info (bucket key url : String) (size : Nat) (mimeType : Option String)
  | httpInfo (data : String)
deriving DecidableEq, Repr

/-- An entry of `uploadedObjectsForRollback` (only the `s3` case pushes one);
the fields the rollback pass reads are `bucket`, `key` and `url`. -/
structure RollbackItem where
  bucket : String
  key : String
  url : String
deriving DecidableEq, Repr

/-- Remote object-store state: which (bucket, key) pairs currently hold an
object. -/
structure SendState where
  objects : String → String → Bool

/-- Effect of a successful `PutObjectCommand`. -/
def SendState.putObject (st : SendState) (b k : String) : SendState :=
  ⟨fun b' k' => if b' = b ∧ k' = k then true else st.objects b' k'⟩

/-- Effect of a successful `DeleteObjectCommand`. -/
def SendState.deleteObject (st : SendState) (b k : String) : SendState :=
  ⟨fun b' k' => if b' = b ∧ k' = k then false else st.objects b' k'⟩

/-- Fault model for the external services used by `files.send`: which S3 puts
fail (by region, credentials, bucket, key), which S3 deletes fail, which HTTP
posts fail, and the response body a successful post returns. -/
structure SendWorld where
  putFails : String → String → String → String → Bool
  deleteFails : Option String → Option String → String → String → Bool
  postFails : String → Bool
  postResponse : String → String

/-- `encodeURIComponent`, modelled as the identity: no claim depends on
percent-escaping, and escaping introduces no `.` characters, so the
region-position of `url.split('.')` is unaffected. -/
def encodeURIComponentModel (s : String) : String := s

/-- The synthesized access URL of the `s3` case:
`https://${bucket}.s3.${region}.amazonaws.com/${encodeURIComponent(name)}`. -/
def s3UrlOf (bucket region key : String) : String :=
  "https://" ++ bucket ++ ".s3." ++ region ++ ".amazonaws.com/"
    ++ encodeURIComponentModel key

/-- `typeof rename === "function" ? rename(fileToSend) : fileToSend.filename`
in `files.send`. -/
def sendRenameOf (cfg : SendConfig) (f : CachedFile) : String :=
  match cfg.rename with
  | some g => g f
  | none => f.filename

/-- The 400 error for incomplete `s3` options. -/
def s3OptionsErr : JsErr :=
  .fileSaveError "S3 provider requires \x27bucket\x27, \x27region\x27, and \x27credentials\x27 in options." 400

/-- The 400 error for a missing `customHttp` URL. -/
def httpOptionsErr : JsErr :=
  .fileSaveError "customHttp provider requires a \x27url\x27 in options." 400

/-- One iteration of the file loop of `files.send`: validation (identical to
`save`), rename, then the provider switch on `provider.toLowerCase()`.  On
success it returns the pushed result record, the new remote state, and the
rollback-ledger entry (pushed only by the `s3` case).  Reading the temp file
stream fails with `ENOENT` when the cached file is missing. -/
def sendStep (w : SendWorld) (fs : Fs) (cfg : SendConfig) (pv : String)
    (f : CachedFile) (st : SendState) :
    Except JsErr (SendInfo × SendState × Option RollbackItem) :=
  match validateFile cfg.validations f with
  | some e => .error e
  | none =>
    let newFilename := sendRenameOf cfg f
    if strLower pv = "s3" then
      match cfg.options with
      | none => .error s3OptionsErr
      | some o =>
        match o.bucket, o.region, o.credentials with
        | some bucket, some region, some cred =>
          if bucket = "" ∨ region = "" then .error s3OptionsErr
          else
            match fs.entries f.tempFilePath with
            | none => .error (.fsError "ENOENT"
                ("ENOENT: no such file or directory, open \x27" ++ f.tempFilePath ++ "\x27"))
            | some _ =>
              if w.putFails region cred bucket newFilename then
                .error (.fsError "S3ServiceError" "The S3 upload failed.")
              else
                let url := s3UrlOf bucket region newFilename
                .ok (.s3Info bucket newFilename url f.size f.mimetypeAccess,
                     st.putObject bucket newFilename,
                     some ⟨bucket, newFilename, url⟩)
        | _, _, _ => .error s3OptionsErr
    else if strLower pv = "customhttp" then
      match cfg.options with
      | none => .error httpOptionsErr
      | some o =>
        match o.url with
        | none => .error httpOptionsErr
        | some u =>
          if u = "" then .error httpOptionsErr
          else
            match fs.entries f.tempFilePath with
            | none => .error (.fsError "ENOENT"
                ("ENOENT: no such file or directory, open \x27" ++ f.tempFilePath ++ "\x27"))
            | some _ =>
              if w.postFails u then .error (.fsError "ERR_BAD_RESPONSE" "Request failed.")
              else .ok (.httpInfo (w.postResponse u), st, none)
    else .error (.fileSaveError ("Unsupported provider: \x27" ++ pv ++ "\x27.") 400)

/-- `uxioObject.files.filter((f) => filenamesToSend.includes(f.fieldname))`. -/
def matchedSendFiles (cfg : SendConfig) (reg : List CachedFile) : List CachedFile :=
  reg.filter (fun f => cfg.filename.toList.contains f.fieldname)

/-- The file-by-file loop of `files.send`, threading the remote state, the
`sentFilesInfo` accumulator and the `uploadedObjectsForRollback` ledger. -/
def sendFilesLoop (w : SendWorld) (fs : Fs) (cfg : SendConfig) (pv : String) :
    List CachedFile → SendState → List SendInfo → List RollbackItem →
    LoopOut SendInfo SendState RollbackItem
  | [], st, infos, ledger => .ok infos st ledger
  | f :: rest, st, infos, ledger =>
    match sendStep w fs cfg pv f st with
    | .error e => .err e st ledger
    | .ok (info, st1, item) =>
      sendFilesLoop w fs cfg pv rest st1 (infos ++ [info]) (ledger ++ item.toList)

/-- The main config loop of `files.send`: the `provider` presence check comes
first, then the selector filter, `required` / skip, then the file loop. -/
def sendConfigsLoop (w : SendWorld) (fs : Fs) :
    List SendConfig → List CachedFile → SendState → List SendInfo → List RollbackItem →
    LoopOut SendInfo SendState RollbackItem
  | [], _, st, infos, ledger => .ok infos st ledger
  | cfg :: rest, reg, st, infos, ledger =>
    if ¬ truthyStr cfg.provider then
      .err (.fileSaveError "A \x27provider\x27 must be specified in the configuration." 400) st ledger
    else
      let matched := matchedSendFiles cfg reg
      if cfg.required ∧ matched = [] then
        .err (requiredErr cfg.filename) st ledger
      else if matched = [] then
        sendConfigsLoop w fs rest reg st infos ledger
      else
        match sendFilesLoop w fs cfg (cfg.provider.getD "") matched st infos ledger with
        | .ok infos1 st1 ledger1 => sendConfigsLoop w fs rest reg st1 infos1 ledger1
        | .err e st1 ledger1 => .err e st1 ledger1

/-- The credentials lookup of the rollback helper in `files.send`'s catch
block: `config.find(c => c.provider === 's3')?.options.credentials`, evaluated
against the ORIGINAL `config` argument.  When `config` is a single object,
`config.find` is not a function and the expression throws a `TypeError`
(`.error ()`), which the helper's own catch swallows; when the found config
has no `options`, reading `.credentials` of `undefined` also throws. -/
def s3CredsLookup : ConfigArg SendConfig → Except Unit (Option String)
  | .single _ => .error ()
  | .batch cs =>
    match cs.find? (fun c => c.provider = some "s3") with
    | none => .ok none
    | some c =>
      match c.options with
      | none => .error ()
      | some o => .ok o.credentials

/-- `item.url.split('.')[2]` — the region the rollback pass infers from the
synthesized URL. -/
def urlRegionOf (url : String) : Option String := (splitChar '.' url)[2]?

/-- One rollback deletion of `files.send`'s catch block, best-effort: any
error inside the helper (the `TypeError`s of the credentials lookup, or a
failing `DeleteObjectCommand`) is caught and logged, leaving the remote state
unchanged. -/
def sendRollbackItem (w : SendWorld) (cfgArg : ConfigArg SendConfig)
    (st : SendState) (item : RollbackItem) : SendState :=
  match s3CredsLookup cfgArg with
  | .error _ => st
  | .ok creds =>
    if w.deleteFails (urlRegionOf item.url) creds item.bucket item.key then st
    else st.deleteObject item.bucket item.key

/-- Rethrow policy of `files.send`'s catch block: a `FileSaveError` is
rethrown as-is; any other error is wrapped via
`new FileSaveError(err.message, err.status || 500)`. -/
def wrapSend : JsErr → JsErr
  | .fileSaveError m s => .fileSaveError m s
  | .fsError _ m => .fileSaveError m 500

/-- Full outcome of a `files.send` call. -/
structure SendResult where
  result : Except JsErr (List SendInfo)
  stFinal : SendState
  stAtError : SendState
  ledger : List RollbackItem

/-- The complete `files.send(config, uxioObject)` model: run the config loop;
on error, run the best-effort rollback over the ledger and reject with the
(possibly wrapped) error. -/
def filesSend (w : SendWorld) (fs : Fs) (cfgArg : ConfigArg SendConfig)
    (reg : List CachedFile) (st : SendState) : SendResult :=
  match sendConfigsLoop w fs cfgArg.toList reg st [] [] with
  | .ok infos st1 ledger => ⟨.ok infos, st1, st1, ledger⟩
  | .err e st1 ledger =>
    ⟨.error (wrapSend e), ledger.foldl (sendRollbackItem w cfgArg) st1, st1, ledger⟩

/-! ### The ingestion stage and registry helpers (`index.js`) -/

/-- The temp cache path allocated for a part:
`path.join(tempCacheDir, fieldname + "-" + filename)`. -/
def tempPathFor (cacheDir fieldname filename : String) : String :=
  pathJoin cacheDir (fieldname ++ "-" ++ filename)

/-- The ingestion events relevant to the registry: a `file` event of the
multipart parser (opening a new part), and a `data` chunk of `n` bytes on the
currently open part's stream.  The parser emits parts strictly sequentially,
so every chunk belongs to the most recently opened part. -/
inductive IngestEvent where
  | fileStart (fieldname filename encoding mimeType : String)
  | chunk (n : Nat)
deriving DecidableEq, Repr

/-- `req.uxio.files.find((f) => f.fieldname === fieldname)` followed by
`fileObj.size += data.length`: increment the size of the FIRST record whose
`fieldname` matches; do nothing when none matches. -/
def bumpFirst : List CachedFile → String → Nat → List CachedFile
  | [], _, _ => []
  | r :: rs, fn, n =>
    if r.fieldname = fn then { r with size := r.size + n } :: rs
    else r :: bumpFirst rs fn n

/-- Ingestion state: the registry built so far, and the fieldname the
currently open part was submitted under. -/
structure IngestState where
  files : List CachedFile
  current : Option String

/-- One ingestion event applied to the state, as the `bb.on("file")` handler
does: a `file` event pushes a fresh record with `size: 0`; a `data` chunk
increments the size of the first record matching the open part's fieldname. -/
def ingestStep (cacheDir : String) (st : IngestState) : IngestEvent → IngestState
  | .fileStart fn fname enc mt =>
    { files := st.files ++ [⟨fn, fname, enc, mt, tempPathFor cacheDir fn fname, 0⟩]
      current := some fn }
  | .chunk n =>
    match st.current with
    | some fn => { st with files := bumpFirst st.files fn n }
    | none => st

/-- The registry produced by running the ingestion stage over a sequence of
parser events. -/
def ingest (cacheDir : String) (events : List IngestEvent) : List CachedFile :=
  (events.foldl (ingestStep cacheDir) ⟨[], none⟩).files

/-- A JS value passed to `hasFiles`: a string, an array of strings, or
anything else (`undefined`, a number, an object, ...). -/
inductive JsArg where
  | strArg (s : String)
  | arrArg (l : List String)
  | otherArg
deriving DecidableEq, Repr

/-- The `hasFile` getter of `req.uxio`: `req.uxio.files.length > 0`. -/
def hasFile (reg : List CachedFile) : Bool :=
  decide (reg.length > 0)

/-- The `hasFiles(fieldNames)` helper of `req.uxio`: `Array.isArray` case
first, then `typeof === "string"`, else `false`. -/
def hasFiles (reg : List CachedFile) : JsArg → Bool
  | .arrArg l => reg.any (fun f => l.contains f.fieldname)
  | .strArg s => reg.any (fun f => f.fieldname = s)
  | .otherArg => false

/-! ### Concrete fixtures used by witnesses and counterexamples -/

/-- A filesystem with a destination directory `ups` and two cached temp files
`t1`, `t2`. -/
def fsDemo : Fs :=
  ⟨fun p => if p = "ups" then some .dir
    else if p = "t1" then some .file
    else if p = "t2" then some .file
    else none⟩

/-- No rollback deletion faults. -/
def noStuck : String → Bool := fun _ => false

/-- A cached file under field `avatar`, cached at `t1`. -/
def fileA : CachedFile := ⟨"avatar", "a.png", "7bit", "image/png", "t1", 20⟩

/-- A second cached file with the same original name as `fileA`, cached at `t2`. -/
def fileDup : CachedFile := ⟨"avatar", "a.png", "7bit", "image/png", "t2", 30⟩

/-- A cached file whose temp path does not exist on `fsDemo`. -/
def fileMissingTmp : CachedFile := ⟨"avatar", "b.png", "7bit", "image/png", "missing", 9⟩

/-- A one-byte cached file, cached at `t2`. -/
def fileTiny : CachedFile := ⟨"avatar", "c.png", "7bit", "image/png", "t2", 1⟩

/-- A cached file under field `file`, cached at `t2`. -/
def fileB : CachedFile := ⟨"file", "d.txt", "7bit", "text/plain", "t2", 7⟩

/-- A plain save config: field `avatar` into directory `ups`. -/
def cfgUps : SaveConfig := { filename := .one "avatar", path := "ups" }

/-- A save config for field `file` into directory `ups`. -/
def cfgFileB : SaveConfig := { filename := .one "file", path := "ups" }

/-- A save config whose validation specifies `maxSize: 0`. -/
def cfgMaxZero : SaveConfig :=
  { filename := .one "avatar", path := "ups", validations := some { maxSize := some 0 } }

/-- A required save config for field `doc`. -/
def cfgReqDoc : SaveConfig := { filename := .one "doc", path := "ups", required := true }

/-- The filesystem after successfully saving `fileA` with `cfgUps`. -/
def fsAfterFirst : Fs := (filesSave (.single cfgUps) [fileA] fsDemo noStuck).fsFinal

/-- A send fault model: the S3 put of key `n2` fails, S3 deletes always
succeed, HTTP posts always fail. -/
def sendWorldDemo : SendWorld :=
  { putFails := fun _ _ _ k => k = "n2"
    deleteFails := fun _ _ _ _ => false
    postFails := fun _ => true
    postResponse := fun _ => "" }

/-- A cached file under field `doc` named `n1`, cached at `t1`. -/
def fileDoc1 : CachedFile := ⟨"doc", "n1", "7bit", "text/plain", "t1", 5⟩

/-- A cached file under field `doc` named `n2`, cached at `t2`. -/
def fileDoc2 : CachedFile := ⟨"doc", "n2", "7bit", "text/plain", "t2", 6⟩

/-- An `s3` send config with complete options. -/
def sendCfgS3 : SendConfig :=
  { filename := .one "doc", provider := some "s3"
    options := some { bucket := some "b", region := some "r", credentials := some "c" } }

/-- A `customHttp` send config with a URL. -/
def sendCfgHttp : SendConfig :=
  { filename := .one "doc", provider := some "customHttp"
    options := some { url := some "http://x/api" } }

/-- An empty object store. -/
def s3Empty : SendState := ⟨fun _ _ => false⟩

/-! ### Theorems -/

/-- Pointwise effect of one best-effort unlink. -/
theorem unlink_entries (stuck : String → Bool) (p q : String) (fs : Fs) :
    (unlinkBestEffort stuck p fs).entries q
      = if q = p ∧ stuck p = false then none else fs.entries q := by
  unfold unlinkBestEffort
  by_cases hs : stuck p = true
  · simp [hs]
  · have hs' : stuck p = false := by simpa using hs
    by_cases hq : q = p <;> simp [hs', hq, Fs.set]

/-- Pointwise effect of the whole rollback pass: a path is removed exactly
when it is in the ledger and its deletion does not fault; all other paths are
untouched. -/
theorem rollbackPaths_entries (stuck : String → Bool) (ledger : List String)
    (fs : Fs) (q : String) :
    (rollbackPaths stuck ledger fs).entries q
      = if q ∈ ledger ∧ stuck q = false then none else fs.entries q := by
  induction ledger generalizing fs with
  | nil => simp [rollbackPaths]
  | cons p rest ih =>
    have hstep : rollbackPaths stuck (p :: rest) fs
        = rollbackPaths stuck rest (unlinkBestEffort stuck p fs) := rfl
    rw [hstep, ih, unlink_entries]
    by_cases hqr : q ∈ rest ∧ stuck q = false
    · simp [hqr, List.mem_cons]
    · by_cases hqp : q = p
      · subst hqp
        by_cases hsq : stuck q = false
        · simp [hsq, List.mem_cons]
        · have : stuck q = true := by simpa using hsq
          simp [this]
      · simp only [List.mem_cons]
        have : ¬((q = p ∨ q ∈ rest) ∧ stuck q = false) := by
          rintro ⟨hqp' | hmem, hsq⟩
          · exact hqp hqp'
          · exact hqr ⟨hmem, hsq⟩
        simp [hqr, this, hqp]

/-- Claim C1: whenever a `files.save` call rejects (with any batch of configs
and any registry), the single rejection is a `FileSaveError` (the original or
its wrapped form), every destination path in this call's rollback ledger whose
deletion does not fault is removed from the final filesystem — each deletion
independent of the others — deletion faults are swallowed, and every path not
in this call's ledger is left exactly as it was when the error was thrown; no
result array is returned. -/
theorem save_rollback_on_error (cfgArg : ConfigArg SaveConfig)
    (reg : List CachedFile) (fs : Fs) (stuck : String → Bool) (e : JsErr)
    (h : (filesSave cfgArg reg fs stuck).result = .error e) :
    (∀ p ∈ (filesSave cfgArg reg fs stuck).ledger, stuck p = false →
      ((filesSave cfgArg reg fs stuck).fsFinal).entries p = none)
    ∧ (∀ q, q ∉ (filesSave cfgArg reg fs stuck).ledger →
      ((filesSave cfgArg reg fs stuck).fsFinal).entries q
        = ((filesSave cfgArg reg fs stuck).fsAtError).entries q)
    ∧ e.isFileSaveErr = true := by
  cases hloop : saveConfigsLoop cfgArg.toList reg fs [] [] with
  | ok infos fs1 ledger =>
    rw [filesSave, hloop] at h
    exact absurd h (by simp)
  | err e0 fs1 ledger =>
    have hres : filesSave cfgArg reg fs stuck
        = ⟨.error (wrapSave e0), rollbackPaths stuck ledger fs1, fs1, ledger⟩ := by
      rw [filesSave, hloop]
    rw [hres] at h
    have he : e = wrapSave e0 := by
      simpa using h.symm
    refine ⟨?_, ?_, ?_⟩
    · intro p hp hstuck
      rw [hres]
      simp only [rollbackPaths_entries]
      rw [hres] at hp
      simp [hp, hstuck]
    · intro q hq
      rw [hres] at hq ⊢
      simp only [rollbackPaths_entries]
      simp [hq]
    · rw [he]
      cases e0 <;> simp [wrapSave, JsErr.isFileSaveErr]

/-- Witness for C1: a single call saving `fileA` and then hitting a 409
conflict on `fileDup`: the call rejects, the ledger holds the moved path
`ups/a.png`, and after rollback that path is gone. -/
theorem save_rollback_on_error_witness :
    (filesSave (.single cfgUps) [fileA, fileDup] fsDemo noStuck).ledger = ["ups/a.png"]
    ∧ ((filesSave (.single cfgUps) [fileA, fileDup] fsDemo noStuck).fsFinal).entries
        "ups/a.png" = none :=
  ⟨rfl,
    (save_rollback_on_error (.single cfgUps) [fileA, fileDup] fsDemo noStuck
      (.fileSaveError "File with name \x27a.png\x27 already exists." 409) rfl).1
      "ups/a.png" (by decide) rfl⟩

/-- Claim C2 (code_bug evidence): the error taxonomy says unexpected/internal
errors are wrapped with status 500, and `files.send` indeed wraps raw errors
with `err.status || 500` (second conjunct); but `files.save` wraps them with
`new FileSaveError(err.message, err.status)` where `err.status` is
`undefined`, so the constructor default status 400 applies: a save whose
`fs.promises.rename` throws a raw `ENOENT` rejects with status 400, not 500
(first conjunct). -/
theorem save_internal_wrap_status :
    ((filesSave (.single cfgUps) [fileMissingTmp] fsDemo noStuck).result
      = .error (.fileSaveError
          "ENOENT: no such file or directory, rename \x27missing\x27 -> \x27ups/b.png\x27" 400))
    ∧ ((filesSend sendWorldDemo fsDemo (.single sendCfgHttp) [fileDoc1] s3Empty).result
      = .error (.fileSaveError "Request failed." 500)) :=
  ⟨rfl, rfl⟩

/-- Claim C3 (code_bug evidence): a successful `files.save` of a cached file
whose declared MIME type is `image/png` returns a record whose `mimeType`
field is `undefined` (`fileToSave.mimetype` is not a key of the cached
record), and the record carries no enrichment metadata at all —
`files.save` never invokes `getMetadata`. -/
theorem save_result_mime_metadata_missing :
    (filesSave (.single cfgUps) [fileA] fsDemo noStuck).result
      = .ok [{ fieldname := "avatar", originalName := "a.png", path := "ups/a.png",
               size := 20, mimeType := none }] :=
  rfl

/-- Claim C4 (code_bug evidence): ingesting two file parts that share the
field name `a` (10 bytes, then 5 bytes) leaves the registry sizes at
`[15, 0]`: the `data` handler looks its record up with
`files.find((f) => f.fieldname === fieldname)`, so the second part's chunks
increment the FIRST record's `sizeBytes`. The claim expects `[10, 5]`. -/
theorem ingest_shared_fieldname_sizes :
    (ingest "cache"
      [.fileStart "a" "x.txt" "7bit" "text/plain", .chunk 10,
       .fileStart "a" "y.txt" "7bit" "text/plain", .chunk 5]).map CachedFile.size
      = [15, 0] :=
  rfl

/-- Claim C7 (code_bug evidence): `files.send` with a SINGLE (non-array) `s3`
config uploading two files where the second put fails: the first object was
uploaded and recorded in the rollback ledger (second conjunct), deletes are
configured to always succeed, yet the object is still present after the call
rejects (third conjunct) — the rollback helper evaluates
`config.find(...)` on the original non-array argument, throws a `TypeError`
and swallows it, so no delete is ever issued.  Passing the same config inside
an array makes the rollback delete the object (fourth conjunct). -/
theorem send_single_config_rollback_skipped :
    ((filesSend sendWorldDemo fsDemo (.single sendCfgS3) [fileDoc1, fileDoc2] s3Empty).result
      = .error (.fileSaveError "The S3 upload failed." 500))
    ∧ ((filesSend sendWorldDemo fsDemo (.single sendCfgS3) [fileDoc1, fileDoc2] s3Empty).ledger
      = [⟨"b", "n1", "https://b.s3.r.amazonaws.com/n1"⟩])
    ∧ ((filesSend sendWorldDemo fsDemo (.single sendCfgS3) [fileDoc1, fileDoc2] s3Empty).stFinal.objects
        "b" "n1" = true)
    ∧ ((filesSend sendWorldDemo fsDemo (.batch [sendCfgS3]) [fileDoc1, fileDoc2] s3Empty).stFinal.objects
        "b" "n1" = false) :=
  ⟨rfl, rfl, rfl, rfl⟩

/-- Claim C5: a file that passes validation and whose computed final path is
already occupied makes `files.save` throw the 409 Conflict error instead of
moving anything (first conjunct, over all configs, files and filesystems); and
in the concrete two-call scenario, a first call saves `fileA` to `ups/a.png`,
a second call over the resulting filesystem rejects with status 409, the first
call's file is still at `ups/a.png`, and the second call's temp file was never
moved — rollback only deletes the failing call's own (here empty) ledger. -/
theorem save_conflict_no_overwrite :
    (∀ (cfg : SaveConfig) (f : CachedFile) (fs : Fs),
      validateFile cfg.validations f = none →
      (fs.entries (finalPathFor cfg f)).isSome = true →
      stepFile cfg f fs = .error (.fileSaveError
        ("File with name \x27" ++ renameOf cfg f ++ "\x27 already exists.") 409))
    ∧ ((filesSave (.single cfgUps) [fileA] fsDemo noStuck).result
        = .ok [infoFor cfgUps fileA])
    ∧ ((filesSave (.single cfgUps) [fileDup] fsAfterFirst noStuck).result
        = .error (.fileSaveError "File with name \x27a.png\x27 already exists." 409))
    ∧ ((filesSave (.single cfgUps) [fileDup] fsAfterFirst noStuck).fsFinal.entries
        "ups/a.png" = some .file)
    ∧ ((filesSave (.single cfgUps) [fileDup] fsAfterFirst noStuck).fsFinal.entries
        "t2" = some .file) := by
  refine ⟨?_, rfl, rfl, rfl, rfl⟩
  intro cfg f fs hv hex
  unfold stepFile
  rw [hv]
  simp only [hex, if_true]

/-- Witness for C5's universally quantified conjunct: applying it to `cfgUps`,
`fileDup` and the filesystem left by the first call yields the concrete 409
rejection. -/
theorem save_conflict_no_overwrite_witness :
    stepFile cfgUps fileDup fsAfterFirst
      = .error (.fileSaveError "File with name \x27a.png\x27 already exists." 409) :=
  save_conflict_no_overwrite.1 cfgUps fileDup fsAfterFirst rfl rfl

/-- Claim C6 (counterexample): with `validations.maxSize = 0`, a one-byte file
exceeds the limit yet the save call SUCCEEDS — the guard
`validations.maxSize && size > validations.maxSize` treats the number 0 as
falsy and skips the size check, so no `ValidationFailed` is raised. -/
theorem save_maxSize_zero_counterexample :
    (filesSave (.single cfgMaxZero) [fileTiny] fsDemo noStuck).result
      = .ok [{ fieldname := "avatar", originalName := "c.png", path := "ups/c.png",
               size := 1, mimeType := none }] :=
  rfl

/-- Claim C6 (amended): when validation specifies a NONZERO `maxSize`, a file
whose size exceeds it fails with the 400 `ValidationFailed` error (first
conjunct) while a file of size at most `maxSize` — in particular exactly
`maxSize` — passes the size check and proceeds to the MIME check (second
conjunct); when the allowed-MIME-type spec is present and truthy, a declared
type outside the list fails with the 400 error (third conjunct); and any
validation failure aborts the per-file step before any move (fourth
conjunct).  `maxSize = 0` is treated as absent by JS truthiness (see the
counterexample). -/
theorem save_validation_boundary :
    (∀ (v : Validations) (f : CachedFile) (m : Nat),
      v.maxSize = some m → m ≠ 0 → f.size > m →
      validateFile (some v) f = some (.fileSaveError
        ("File size for \x27" ++ f.filename ++ "\x27 exceeds limit of "
          ++ toString m ++ " bytes.") 400))
    ∧ (∀ (v : Validations) (f : CachedFile) (m : Nat),
      v.maxSize = some m → f.size ≤ m →
      validateFile (some v) f = mimeCheck v f)
    ∧ (∀ (v : Validations) (f : CachedFile) (spec : StrOrList),
      v.mimeType = some spec → mimeSpecTruthy (some spec) = true →
      (allowedMimes spec).contains f.mimeType = false →
      mimeCheck v f = some (.fileSaveError
        ("Invalid file type for \x27" ++ f.filename ++ "\x27. Only "
          ++ String.intercalate ", " (allowedMimes spec) ++ " are allowed.") 400))
    ∧ (∀ (cfg : SaveConfig) (f : CachedFile) (fs : Fs) (e : JsErr),
      validateFile cfg.validations f = some e → stepFile cfg f fs = .error e) := by
  refine ⟨?_, ?_, ?_, ?_⟩
  · intro v f m hm hm0 hgt
    simp only [validateFile, hm]
    simp [hm0, hgt]
  · intro v f m hm hle
    simp only [validateFile, hm]
    have : ¬(m ≠ 0 ∧ f.size > m) := by
      rintro ⟨_, hgt⟩
      exact absurd hle (by omega)
    simp [this]
  · intro v f spec hspec htruthy hnotin
    simp only [mimeCheck, hspec, htruthy, if_true]
    simp only [hnotin, Bool.false_eq_true, if_false]
  · intro cfg f fs e hv
    unfold stepFile
    rw [hv]

/-- Witness for C6 (amended): at `maxSize = 10`, an 11-byte file fails the
size check with the 400 error, a 10-byte file passes it, and a declared type
`text/plain` outside the allowed list `[image/png]` fails the MIME check. -/
theorem save_validation_boundary_witness :
    validateFile (some { maxSize := some 10 })
        ⟨"avatar", "big.bin", "7bit", "application/o", "t1", 11⟩
      = some (.fileSaveError
          "File size for \x27big.bin\x27 exceeds limit of 10 bytes." 400)
    ∧ validateFile (some { maxSize := some 10 })
        ⟨"avatar", "ok.bin", "7bit", "application/o", "t1", 10⟩
      = mimeCheck { maxSize := some 10 } ⟨"avatar", "ok.bin", "7bit", "application/o", "t1", 10⟩
    ∧ mimeCheck { mimeType := some (.many ["image/png"]) }
        ⟨"avatar", "d.txt", "7bit", "text/plain", "t1", 3⟩
      = some (.fileSaveError
          "Invalid file type for \x27d.txt\x27. Only image/png are allowed." 400) :=
  ⟨save_validation_boundary.1 _ _ 10 rfl (by decide) (by decide),
   save_validation_boundary.2.1 _ _ 10 rfl (by decide),
   save_validation_boundary.2.2.1 _ _ (.many ["image/png"]) rfl rfl rfl⟩

/-- Claim C8: for any config whose selector matches no cached file: with
`required`, the save loop throws the 404 `Required files not found` error
with the filesystem and ledger untouched (first conjunct), and a whole
single-config call rejects with exactly that error (third conjunct); without
`required`, processing continues with the next config in the batch, with
nothing persisted or created for the skipped config (second conjunct).  The
same holds for `files.send` (fourth and fifth conjuncts; the `provider`
presence check precedes the selector logic, hence the truthiness hypothesis),
and the error's status is 404 (last conjunct). -/
theorem save_required_and_skip :
    (∀ (cfg : SaveConfig) (rest : List SaveConfig) (reg : List CachedFile) (fs : Fs)
        (infos : List SavedFileInfo) (ledger : List String),
      matchedFiles cfg reg = [] → cfg.required = true →
      saveConfigsLoop (cfg :: rest) reg fs infos ledger
        = .err (requiredErr cfg.filename) fs ledger)
    ∧ (∀ (cfg : SaveConfig) (rest : List SaveConfig) (reg : List CachedFile) (fs : Fs)
        (infos : List SavedFileInfo) (ledger : List String),
      matchedFiles cfg reg = [] → cfg.required = false →
      saveConfigsLoop (cfg :: rest) reg fs infos ledger
        = saveConfigsLoop rest reg fs infos ledger)
    ∧ (∀ (cfg : SaveConfig) (reg : List CachedFile) (fs : Fs) (stuck : String → Bool),
      matchedFiles cfg reg = [] → cfg.required = true →
      (filesSave (.single cfg) reg fs stuck).result = .error (requiredErr cfg.filename))
    ∧ (∀ (w : SendWorld) (fsx : Fs) (cfg : SendConfig) (rest : List SendConfig)
        (reg : List CachedFile) (st : SendState) (infos : List SendInfo)
        (ledger : List RollbackItem),
      truthyStr cfg.provider = true → matchedSendFiles cfg reg = [] → cfg.required = true →
      sendConfigsLoop w fsx (cfg :: rest) reg st infos ledger
        = .err (requiredErr cfg.filename) st ledger)
    ∧ (∀ (w : SendWorld) (fsx : Fs) (cfg : SendConfig) (rest : List SendConfig)
        (reg : List CachedFile) (st : SendState) (infos : List SendInfo)
        (ledger : List RollbackItem),
      truthyStr cfg.provider = true → matchedSendFiles cfg reg = [] → cfg.required = false →
      sendConfigsLoop w fsx (cfg :: rest) reg st infos ledger
        = sendConfigsLoop w fsx rest reg st infos ledger)
    ∧ (∀ sel : StrOrList, (requiredErr sel).statusOf = some 404) := by
  refine ⟨?_, ?_, ?_, ?_, ?_, fun _ => rfl⟩
  · intro cfg rest reg fs infos ledger hm hreq
    simp [saveConfigsLoop, hm, hreq]
  · intro cfg rest reg fs infos ledger hm hreq
    simp [saveConfigsLoop, hm, hreq]
  · intro cfg reg fs stuck hm hreq
    have hloop : saveConfigsLoop [cfg] reg fs [] []
        = .err (requiredErr cfg.filename) fs [] := by
      simp [saveConfigsLoop, hm, hreq]
    rw [filesSave]
    show (match saveConfigsLoop (ConfigArg.toList (.single cfg)) reg fs [] [] with
      | .ok infos fs1 ledger => SaveResult.mk (.ok infos) fs1 fs1 ledger
      | .err e fs1 ledger =>
          SaveResult.mk (.error (wrapSave e)) (rollbackPaths stuck ledger fs1) fs1 ledger).result
      = .error (requiredErr cfg.filename)
    rw [show ConfigArg.toList (ConfigArg.single cfg) = [cfg] from rfl, hloop]
    simp [wrapSave, requiredErr]
  · intro w fsx cfg rest reg st infos ledger hp hm hreq
    simp [sendConfigsLoop, hp, hm, hreq]
  · intro w fsx cfg rest reg st infos ledger hp hm hreq
    simp [sendConfigsLoop, hp, hm, hreq]

/-- Witness for C8: a required config for field `doc` against a registry whose
only file is under field `avatar` rejects with the 404 error; the same config
without `required` is skipped and the loop moves on. -/
theorem save_required_and_skip_witness :
    (filesSave (.single cfgReqDoc) [fileA] fsDemo noStuck).result
      = .error (requiredErr (.one "doc"))
    ∧ saveConfigsLoop [{ filename := .one "doc", path := "ups" }] [fileA] fsDemo [] []
      = saveConfigsLoop [] [fileA] fsDemo [] [] :=
  ⟨save_required_and_skip.2.2.1 cfgReqDoc [fileA] fsDemo noStuck rfl rfl,
   save_required_and_skip.2.1 { filename := .one "doc", path := "ups" } [] [fileA]
     fsDemo [] [] rfl rfl⟩

/-- A successful per-file step pushes exactly the record `infoFor cfg f`
(whose fields depend only on the config and the cached file). -/
theorem stepFile_ok_info (cfg : SaveConfig) (f : CachedFile) (fs : Fs)
    (info : SavedFileInfo) (fs1 : Fs) (p : String)
    (h : stepFile cfg f fs = .ok (info, fs1, p)) : info = infoFor cfg f := by
  unfold stepFile at h
  split at h
  · simp at h
  · dsimp only at h
    split at h
    · simp at h
    · split at h
      · simp at h
      · injection h with h'
        exact (congrArg Prod.fst h').symm

/-- A successful run of the file loop appends exactly one record per matched
file, in the order the files were given. -/
theorem saveFilesLoop_ok (cfg : SaveConfig) (fls : List CachedFile) :
    ∀ (fs : Fs) (infos : List SavedFileInfo) (ledger : List String)
      (infos1 : List SavedFileInfo) (fs1 : Fs) (ledger1 : List String),
      saveFilesLoop cfg fls fs infos ledger = .ok infos1 fs1 ledger1 →
      infos1 = infos ++ fls.map (infoFor cfg) := by
  induction fls with
  | nil =>
    intro fs infos ledger infos1 fs1 ledger1 h
    simp only [saveFilesLoop] at h
    injection h with h1 h2 h3
    simp [h1]
  | cons f rest ih =>
    intro fs infos ledger infos1 fs1 ledger1 h
    simp only [saveFilesLoop] at h
    cases hstep : stepFile cfg f fs with
    | error e =>
      simp only [hstep] at h
      simp at h
    | ok trip =>
      obtain ⟨info, fs', p⟩ := trip
      simp only [hstep] at h
      have hrec := ih fs' (infos ++ [info]) (ledger ++ [p]) infos1 fs1 ledger1 h
      have hinfo := stepFile_ok_info cfg f fs info fs' p hstep
      subst hinfo
      rw [hrec]
      simp

/-- A successful run of the config loop appends exactly the per-config,
per-matched-file records in order. -/
theorem saveConfigsLoop_ok (cfgs : List SaveConfig) :
    ∀ (reg : List CachedFile) (fs : Fs) (infos : List SavedFileInfo)
      (ledger : List String) (infos1 : List SavedFileInfo) (fs1 : Fs)
      (ledger1 : List String),
      saveConfigsLoop cfgs reg fs infos ledger = .ok infos1 fs1 ledger1 →
      infos1 = infos ++ perConfigInfos reg cfgs := by
  induction cfgs with
  | nil =>
    intro reg fs infos ledger infos1 fs1 ledger1 h
    simp only [saveConfigsLoop] at h
    injection h with h1 h2 h3
    simp [perConfigInfos, h1]
  | cons cfg rest ih =>
    intro reg fs infos ledger infos1 fs1 ledger1 h
    simp only [saveConfigsLoop] at h
    split at h
    · simp at h
    · split at h
      · rename_i hmatched
        have hrec := ih reg fs infos ledger infos1 fs1 ledger1 h
        simp [perConfigInfos, hrec, hmatched]
      · split at h
        · simp at h
        · rename_i fsDir hdir
          cases hfl : saveFilesLoop cfg (matchedFiles cfg reg) fsDir infos ledger with
          | ok infosMid fsMid ledgerMid =>
            simp only [hfl] at h
            have hmid := saveFilesLoop_ok cfg (matchedFiles cfg reg) fsDir infos ledger
              infosMid fsMid ledgerMid hfl
            have hrec := ih reg fsMid infosMid ledgerMid infos1 fs1 ledger1 h
            rw [hrec, hmid]
            simp [perConfigInfos]
          | err e fsMid ledgerMid =>
            simp only [hfl] at h
            simp at h

/-- Claim C9: every successful `files.save` call returns exactly the records
of the matched files in (config order, then registry order): the output
equals `perConfigInfos`, the concatenation over the configs in array order of
the registry-order filter of each config's selector. -/
theorem save_output_order (cfgArg : ConfigArg SaveConfig) (reg : List CachedFile)
    (fs : Fs) (stuck : String → Bool) (infos : List SavedFileInfo)
    (h : (filesSave cfgArg reg fs stuck).result = .ok infos) :
    infos = perConfigInfos reg cfgArg.toList := by
  cases hloop : saveConfigsLoop cfgArg.toList reg fs [] [] with
  | ok infos0 fs1 ledger =>
    rw [filesSave, hloop] at h
    have h0 : infos0 = infos := by simpa using h
    subst h0
    have := saveConfigsLoop_ok cfgArg.toList reg fs [] [] infos0 fs1 ledger hloop
    simpa using this
  | err e fs1 ledger =>
    rw [filesSave, hloop] at h
    simp at h

/-- Witness for C9: a two-config batch (`avatar` then `file`) over a
two-file registry returns exactly the `perConfigInfos` order. -/
theorem save_output_order_witness :
    (filesSave (.batch [cfgUps, cfgFileB]) [fileA, fileB] fsDemo noStuck).result
      = .ok (perConfigInfos [fileA, fileB] [cfgUps, cfgFileB]) := by
  have h : (filesSave (.batch [cfgUps, cfgFileB]) [fileA, fileB] fsDemo noStuck).result
      = .ok [infoFor cfgUps fileA, infoFor cfgFileB fileB] := rfl
  rw [h, save_output_order (.batch [cfgUps, cfgFileB]) [fileA, fileB] fsDemo noStuck
    [infoFor cfgUps fileA, infoFor cfgFileB fileB] h]
  rfl

/-- Claim C10: on the registry, `hasFile` is true exactly when at least one
record is present; `hasFiles` on a string is true iff some record's field name
equals it, on an array iff some record's field name is contained in it, and on
any other argument (`undefined`, a number, an object, ...) it returns `false`
— all four helpers are total functions, so no call ever throws. -/
theorem registry_helpers_spec (reg : List CachedFile) :
    (hasFile reg = true ↔ reg ≠ [])
    ∧ (∀ s : String, hasFiles reg (.strArg s) = true ↔ ∃ f ∈ reg, f.fieldname = s)
    ∧ (∀ l : List String, hasFiles reg (.arrArg l) = true ↔ ∃ f ∈ reg, f.fieldname ∈ l)
    ∧ hasFiles reg .otherArg = false := by
  refine ⟨?_, ?_, ?_, rfl⟩
  · cases reg <;> simp [hasFile]
  · intro s
    simp [hasFiles, List.any_eq_true]
  · intro l
    simp [hasFiles, List.any_eq_true]

/-- Witness for C10: on a one-record registry under field `avatar`, `hasFile`
holds, `hasFiles "avatar"` holds, and `hasFiles` of a non-string non-array
argument is false. -/
theorem registry_helpers_spec_witness :
    hasFile [fileA] = true
    ∧ hasFiles [fileA] (.strArg "avatar") = true
    ∧ hasFiles [fileA] .otherArg = false :=
  ⟨(registry_helpers_spec [fileA]).1.mpr (by simp),
   ((registry_helpers_spec [fileA]).2.1 "avatar").mpr ⟨fileA, by simp, rfl⟩,
   (registry_helpers_spec [fileA]).2.2.2⟩

end Uxio
